import Mathlib

set_option maxHeartbeats 1000000

/-!
Shallow embedding of the interactive terminal of `src/sqlmesh_tui/app.py`
(classes `InteractiveTerminal` and `SQLMeshApp`).

The embedding models:
* the blocking confirm/prompt bridge (`InteractiveTerminal._confirm`):
  the shared slot `_prompt_return`, its sentinel value and the
  classification the polling loop performs once the slot changes;
* the command router (`InteractiveTerminal.key_enter`): a step function on
  an explicit terminal state, translated branch by branch from the Python
  `try/except/finally` block, with the external collaborators (the SQLMesh
  context object and the shell subprocess) abstracted as oracles supplied
  in an environment record;
* the action dispatchers (`SQLMeshApp.sqlmesh_plan`, `SQLMeshApp.sqlmesh_run`,
  `SQLMeshApp.action_run_intervals`): effect traces parameterised by the
  outcome of the external context call.

Machine-level Python details that no claim depends on (widget focus,
placeholders, CSS, the radio-set widget) are not modelled.  Where a Python
construct is abstracted, the doc comment of the Lean definition says how.
-/

namespace SqlmeshTui

/-- Python sentinel string assigned to `self._prompt_return` while a prompt
is outstanding (`app.py`, `__init__` and `_interact`). -/
def AWAITING_INPUT : String := "__AWAITING_INPUT__"

/-- Outcome of the polling loop inside `InteractiveTerminal._confirm` once
observed with a given slot value: either the loop keeps waiting (slot still
holds the sentinel) or it returns a boolean, possibly after logging an
invalid-response warning. -/
inductive ConfirmOutcome
  | resolvedTrue
  | resolvedFalse (loggedInvalid : Bool)
  | stillWaiting
deriving Repr, DecidableEq

/-- One observation step of the `while self._prompt_return == "__AWAITING_INPUT__"`
loop in `InteractiveTerminal._confirm` (app.py lines 142-153): if the slot
still holds the sentinel the loop sleeps and polls again; otherwise
membership in `("y", "yes")` yields `True`, membership in `("n", "no")`
yields `False`, and anything else logs `Invalid response: ...` and yields
`False`. -/
def confirmResolve (slot : String) : ConfirmOutcome :=
  if slot = AWAITING_INPUT then ConfirmOutcome.stillWaiting
  else if slot = "y" ∨ slot = "yes" then ConfirmOutcome.resolvedTrue
  else if slot = "n" ∨ slot = "no" then ConfirmOutcome.resolvedFalse false
  else ConfirmOutcome.resolvedFalse true

/-- Characters Python `shlex` treats as token-separating whitespace
(`shlex.whitespace = " \t\r\n"`). -/
def isShWhitespace (c : Char) : Bool :=
  c = ' ' || c = '\t' || c = '\r' || c = '\n'

/-- Lexer modes for the POSIX-mode `shlex` model: outside quotes, inside
single quotes, inside double quotes, and the two states after a backslash
(outside quotes / inside double quotes). -/
inductive ShMode
  | normal
  | single
  | double
  | escNormal
  | escDouble
deriving Repr, DecidableEq

/-- Model of `shlex.split` (POSIX mode, whitespace split) as used at
app.py line 217: whitespace separates tokens, single quotes quote verbatim,
double quotes quote with backslash escaping `"` and `\`, a backslash outside
quotes escapes the next character.  `none` models the `ValueError` that
`shlex.split` raises on an unterminated quote or trailing escape.
Arguments: remaining characters, mode, current token (reversed), and
whether a token has started (so quotes can produce empty tokens). -/
def shlexTokAux : List Char → ShMode → List Char → Bool → Option (List String)
  | [], ShMode.normal, acc, started =>
      if started then some [String.mk acc.reverse] else some []
  | [], _, _, _ => none
  | c :: cs, ShMode.normal, acc, started =>
      if c = '\'' then shlexTokAux cs ShMode.single acc true
      else if c = '"' then shlexTokAux cs ShMode.double acc true
      else if c = '\\' then shlexTokAux cs ShMode.escNormal acc started
      else if isShWhitespace c then
        if started then
          (shlexTokAux cs ShMode.normal [] false).map (fun ts => String.mk acc.reverse :: ts)
        else shlexTokAux cs ShMode.normal [] false
      else shlexTokAux cs ShMode.normal (c :: acc) true
  | c :: cs, ShMode.escNormal, acc, _ => shlexTokAux cs ShMode.normal (c :: acc) true
  | c :: cs, ShMode.single, acc, started =>
      if c = '\'' then shlexTokAux cs ShMode.normal acc started
      else shlexTokAux cs ShMode.single (c :: acc) started
  | c :: cs, ShMode.double, acc, started =>
      if c = '"' then shlexTokAux cs ShMode.normal acc started
      else if c = '\\' then shlexTokAux cs ShMode.escDouble acc started
      else shlexTokAux cs ShMode.double (c :: acc) started
  | c :: cs, ShMode.escDouble, acc, started =>
      if c = '"' ∨ c = '\\' then shlexTokAux cs ShMode.double (c :: acc) started
      else shlexTokAux cs ShMode.double (c :: '\\' :: acc) started

/-- Model of `shlex.split(text)`: `none` when Python would raise `ValueError`. -/
def shlexSplit (s : String) : Option (List String) :=
  shlexTokAux s.data ShMode.normal [] false

/-- Models Python `capture.startswith(c)` for a one-character needle, via the
underlying character list. -/
def headIs (c : Char) (s : String) : Bool :=
  match s.data with
  | [] => false
  | d :: _ => d = c

/-- Models the Python slice `capture[1:]`. -/
def strTail (s : String) : String :=
  match s.data with
  | [] => ""
  | _ :: rest => String.mk rest

/-- Models Python `capture.startswith(p)` for a multi-character needle. -/
def startsWithStr (p s : String) : Bool :=
  p.data.isPrefixOf s.data

/-- Helper for `envArg`: the characters following the first space. -/
def afterFirstSpace : List Char → List Char
  | [] => []
  | c :: cs => if c = ' ' then cs else afterFirstSpace cs

/-- Models Python `str.strip()` on the underlying characters: remove
leading and trailing whitespace. -/
def pyStrip (s : String) : String :=
  String.mk (((s.data.dropWhile Char.isWhitespace).reverse.dropWhile Char.isWhitespace).reverse)

/-- Models `capture.split(" ", 1)[1].strip()` (app.py lines 304 and 313):
everything after the first space, with surrounding whitespace trimmed. -/
def envArg (s : String) : String :=
  pyStrip (String.mk (afterFirstSpace s.data))

/-- Severity of a `notify` toast (Textual): the code uses the default
(information) severity for successes and `severity="error"` for failures. -/
inductive Severity
  | information
  | error
deriving Repr, DecidableEq

/-- A `self.notify(message, severity=...)` call recorded by the embedding. -/
structure Notification where
  message : String
  severity : Severity
deriving Repr, DecidableEq

/-- High-level intents `key_enter` forwards to the `SQLMeshApp` dispatcher
(the `app.action_*` awaits and `app.exit()`), plus reflective invocation of
a context method through the `:` meta branch. -/
inductive Action
  | exitApp
  | runAudits
  | checkStatus
  | getDiff
  | runPlan (env : String)
  | fetchEnvironments
  | runUnitTests
  | runIntervals (env : String)
  | invokeCtx (method : String) (args : List String)
deriving Repr, DecidableEq

/-- Outcome oracle for `getattr(app.ctx, command)(*posargs, **kwargs)`
(app.py line 239): either a return value (`some r` meaning a non-`None`
value whose `repr` is `r`, `none` meaning Python `None`) or a raised
exception carrying its `repr` text. -/
inductive CtxCallOutcome
  | returned (rv : Option String)
  | raised (msg : String)

/-- Outcome oracle for the shell subprocess of the `!` branch
(app.py lines 251-274): the `await asyncio.wait_for(proc.wait(), 10.0)`
either finishes within the 10-second budget, raises `TimeoutError`, or
raises some other exception; each outcome carries what the subsequent
`proc.stdout.read()` / `proc.stderr.read()` return (decoded). -/
inductive ShellOutcome
  | finished (stdout stderr : String)
  | timedOut (stdout stderr : String)
  | waitRaised (stdout stderr : String)

/-- Abstraction of the external SQLMesh context object: `members` models
`dir(app.ctx)` together with the `callable(getattr(app.ctx, name))` flag,
and `call` is the oracle for invoking a member by name.  Argument values are
kept as the raw `shlex` tokens: the `literal_eval`-style coercion of
app.py lines 226-237 only transforms argument values and no routing
decision depends on it. -/
structure SqlCtx where
  members : List (String × Bool)
  call : String → List String → CtxCallOutcome

/-- Ambient collaborators of one `key_enter` step: the active environment
name (`app.active_environment`), the context object, and the shell oracle. -/
structure AppEnv where
  activeEnvironment : String
  ctx : SqlCtx
  shell : String → ShellOutcome

/-- Capacity of the command history: `deque(maxlen=100)` (app.py line 89). -/
def histMax : Nat := 100

/-- Models `deque(maxlen := n).appendleft x` on a most-recent-first list:
the new element goes to the front and the oldest element beyond capacity
`n` falls off the right end. -/
def appendLeftBounded (n : Nat) (x : α) (l : List α) : List α :=
  (x :: l).take n

/-- State of the `InteractiveTerminal` widget visible to the claims, plus
recorded observable effects: the log (`RichLog.write` calls, in order),
notifications, bell rings, `proc.kill()` calls, dispatched actions and
whether `app.exit()` was called. -/
structure TermState where
  promptReturn : String
  inPrompt : Bool
  history : List String
  ttyValue : String
  log : List String
  notifications : List Notification
  bells : Nat
  kills : Nat
  dispatched : List Action
  exited : Bool
deriving Repr, DecidableEq

/-- The `cmds` listing written by the bare `:` branch (app.py lines 206-214):
names of members that do not start with an underscore and are callable. -/
def publicCallables (members : List (String × Bool)) : List String :=
  (members.filter (fun m => !(headIs '_' m.1) && m.2)).map Prod.fst

/-- The string written for the bare `:` listing
(`"[b]Context Methods:[/b]\n- " + "\n- ".join(cmds)`). -/
def ctxMethodListing (members : List (String × Bool)) : String :=
  "[b]Context Methods:[/b]\n- " ++ String.intercalate "\n- " (publicCallables members)

/-- The `:` meta branch of `key_enter` (app.py lines 204-245).  Returns the
updated state and whether the branch left the `try` block by raising
(`shlex.split` raising `ValueError`, `args.pop(0)` raising `IndexError` on
an all-whitespace remainder, or the re-`raise` after a failed context call). -/
def metaBranch (env : AppEnv) (capture : String) (s : TermState) : TermState × Bool :=
  if capture = ":" then
    ({ s with log := s.log ++ [ctxMethodListing env.ctx.members] }, false)
  else
    match shlexSplit (strTail capture) with
    | none => (s, true)
    | some [] => (s, true)
    | some (command :: args) =>
      if command = "plan" then
        ({ s with log := s.log ++
            ["[red]:" ++ command ++ " context command is not supported, try using a builtin instead[/red]"] },
         false)
      else
        match env.ctx.call command args with
        | CtxCallOutcome.returned rv =>
            ({ s with dispatched := s.dispatched ++ [Action.invokeCtx command args],
                      log := s.log ++ (match rv with
                        | some r => [r]
                        | none => []) }, false)
        | CtxCallOutcome.raised e =>
            ({ s with dispatched := s.dispatched ++ [Action.invokeCtx command args],
                      log := s.log ++ [e, "[red]Error running command: " ++ capture ++ "[/red]"] },
             true)

/-- The `if stdout:` half of the epilogue of the `!` branch (app.py lines
267-270): a non-empty captured stdout is written verbatim. -/
def appendOut (s : TermState) (out : String) : TermState :=
  if out = "" then s else { s with log := s.log ++ [out] }

/-- The `if stderr:` half of the epilogue of the `!` branch (app.py lines
271-274): a non-empty captured stderr is written wrapped in a red
`Stderr:` block. -/
def appendErr (s : TermState) (err : String) : TermState :=
  if err = "" then s
  else { s with log := s.log ++ ["\n[red]Stderr:\n" ++ err ++ "[/red]"] }

/-- The full stream epilogue of the `!` branch: stdout, then stderr. -/
def appendStreams (s : TermState) (out err : String) : TermState :=
  appendErr (appendOut s out) err

/-- The empty-bang warning (app.py lines 247-250).  It does not return:
the code still spawns a shell for the empty command afterwards. -/
def bangWarn (capture : String) (s : TermState) : TermState :=
  if capture = "!" then
    { s with log := s.log ++
        ["[red]Bang command should not be empty, ensure you follow with a shell command[/red]"] }
  else s

/-- The `!` shell-escape branch of `key_enter` (app.py lines 246-274):
empty-bang warning, subprocess with the 10-second `wait_for` budget and
its two `except` arms (both killing the process and notifying with error
severity), then the stream epilogue.  None of the arms re-raises. -/
def bangBranch (env : AppEnv) (capture : String) (s : TermState) : TermState × Bool :=
  match env.shell (strTail capture) with
  | ShellOutcome.finished out err => (appendStreams (bangWarn capture s) out err, false)
  | ShellOutcome.timedOut out err =>
      (appendStreams
        { (bangWarn capture s) with
          kills := (bangWarn capture s).kills + 1,
          notifications := (bangWarn capture s).notifications ++
            [⟨"Command " ++ capture ++ " timed out after 10 seconds... Long running commands should be ran in a dedicated shell",
              Severity.error⟩] } out err, false)
  | ShellOutcome.waitRaised out err =>
      (appendStreams
        { (bangWarn capture s) with
          kills := (bangWarn capture s).kills + 1,
          notifications := (bangWarn capture s).notifications ++
            [⟨"Command " ++ capture ++ " failed...", Severity.error⟩] } out err, false)

/-- The fourteen static help lines written by the `?` branch
(app.py lines 277-292). -/
def helpLines : List String :=
  ["[b]Commands:[/b]",
   "[b]a:[/b] Run audits",
   "[b]c:[/b] Check status",
   "[b]d:[/b] Diff env to prod",
   "[b]p:[/b] Plan",
   "[b]p <env>:[/b] Plan for a specific environment",
   "[b]f:[/b] Fetch environments",
   "[b]r:[/b] Run intervals",
   "[b]r <env>:[/b] Run intervals for specific env",
   "[b]t:[/b] Run unit tests",
   "[b]q:[/b] Quit",
   "[b]!<cmd>:[/b] Run a shell command",
   "[b]:<cmd>:[/b] Run a method on the sqlmesh context object",
   "[b]?:[/b] Show this help"]

/-- The body of the `try` block of `key_enter` after the echo and the input
clear (app.py lines 200-317), branch for branch in source order.  Returns
the updated state and whether the branch raised (only the unknown-command
`raise NotImplementedError` and the raising paths of the `:` branch leave
the `try` block exceptionally; the awaited `app.action_*` dispatchers are
modelled as non-raising, which is faithful for the claims at hand since the
plan/run/audit workers swallow their own exceptions). -/
def keyEnterBody (env : AppEnv) (capture : String) (s : TermState) : TermState × Bool :=
  if s.inPrompt then ({ s with promptReturn := capture }, false)
  else if capture = "" then (s, false)
  else if headIs ':' capture then metaBranch env capture s
  else if headIs '!' capture then bangBranch env capture s
  else if capture = "?" then ({ s with log := s.log ++ helpLines }, false)
  else if capture = "q" ∨ capture = "quit" then
    ({ s with exited := true, dispatched := s.dispatched ++ [Action.exitApp] }, false)
  else if capture = "a" ∨ capture = "audit" then
    ({ s with dispatched := s.dispatched ++ [Action.runAudits] }, false)
  else if capture = "c" ∨ capture = "check" then
    ({ s with dispatched := s.dispatched ++ [Action.checkStatus] }, false)
  else if capture = "d" ∨ capture = "diff" then
    ({ s with dispatched := s.dispatched ++ [Action.getDiff] }, false)
  else if capture = "p" ∨ capture = "plan" then
    ({ s with dispatched := s.dispatched ++ [Action.runPlan env.activeEnvironment] }, false)
  else if startsWithStr "p " capture ∨ startsWithStr "plan " capture then
    ({ s with dispatched := s.dispatched ++ [Action.runPlan (envArg capture)] }, false)
  else if capture = "f" ∨ capture = "fetch" then
    ({ s with dispatched := s.dispatched ++ [Action.fetchEnvironments] }, false)
  else if capture = "t" ∨ capture = "test" then
    ({ s with dispatched := s.dispatched ++ [Action.runUnitTests] }, false)
  else if capture = "r" ∨ capture = "run" then
    ({ s with dispatched := s.dispatched ++ [Action.runIntervals env.activeEnvironment] }, false)
  else if startsWithStr "r " capture ∨ startsWithStr "run " capture then
    ({ s with dispatched := s.dispatched ++ [Action.runIntervals (envArg capture)] }, false)
  else
    ({ s with log := s.log ++ ["[red]Unknown command: " ++ capture ++ "[/red]"] }, true)

/-- The first two statements of the `try` block (app.py lines 197-198):
echo the captured line into the log and clear the input. -/
def keyEnterEcho (s : TermState) : TermState :=
  { s with log := s.log ++ ["\n[blue]> " ++ s.ttyValue ++ "[/blue]"], ttyValue := "" }

/-- The `except Exception` handler of `key_enter` (app.py lines 318-320):
when the body raised, ring the bell and put the failed text back into the
input box. -/
def keyEnterExcept (capture : String) (r : TermState × Bool) : TermState :=
  if r.2 then { r.1 with bells := r.1.bells + 1, ttyValue := capture } else r.1

/-- The `finally` clause of `key_enter` (app.py lines 321-324): push the
line onto the bounded history unless a prompt is pending, then clear the
input.  It runs unconditionally, after the `except` handler. -/
def keyEnterFin (capture : String) (s1 : TermState) : TermState :=
  if s1.inPrompt then { s1 with ttyValue := "" }
  else { s1 with history := appendLeftBounded histMax capture s1.history, ttyValue := "" }

/-- One `key_enter` step (app.py lines 192-324): echo, clear, body,
`except` handler, `finally` clause, in source order. -/
def keyEnter (env : AppEnv) (s : TermState) : TermState :=
  keyEnterFin s.ttyValue (keyEnterExcept s.ttyValue (keyEnterBody env s.ttyValue (keyEnterEcho s)))

/-- Submit a sequence of lines through `key_enter`, one after the other. -/
def submitLines (env : AppEnv) (lines : List String) (s : TermState) : TermState :=
  lines.foldl (fun st line => keyEnter env { st with ttyValue := line }) s

/-- Effects recorded by the dispatcher embeddings, in execution order. -/
inductive DispatchEffect
  | planCall (env : String)
  | runCall (env : String)
  | refreshEnvironments
  | notifyError (msg : String)
  | notifyInfo (msg : String)
deriving Repr, DecidableEq

/-- Python `name or self.active_environment`: `None` and the empty string
are falsy and fall back to the active environment. -/
def orActive (active : String) : Option String → String
  | none => active
  | some n => if n = "" then active else n

/-- `SQLMeshApp.sqlmesh_plan` (app.py lines 423-431): call
`ctx.plan(name or active, include_unmodified=True)`; on an exception notify
its repr with error severity; only in the `else` (no-exception) branch kick
off `sqlmesh_fetch_environments`.  The oracle gives the outcome of
`ctx.plan` per environment name, `Except.error` carrying the repr text. -/
def sqlmesh_plan (active : String) (name : Option String)
    (planOutcome : String → Except String Unit) : List DispatchEffect :=
  match planOutcome (orActive active name) with
  | Except.error e =>
      [DispatchEffect.planCall (orActive active name), DispatchEffect.notifyError e]
  | Except.ok _ =>
      [DispatchEffect.planCall (orActive active name), DispatchEffect.refreshEnvironments]

/-- `SQLMeshApp.sqlmesh_run` (app.py lines 442-453): call
`ctx.run(name or active)`; on an exception notify failure with error
severity; otherwise notify success (default severity).  No refresh happens
inside this worker. -/
def sqlmesh_run (active : String) (name : Option String)
    (runOutcome : String → Except String Unit) : List DispatchEffect :=
  match runOutcome (orActive active name) with
  | Except.error _ =>
      [DispatchEffect.runCall (orActive active name),
       DispatchEffect.notifyError ("Run failed for `" ++ orActive active name ++ "`")]
  | Except.ok _ =>
      [DispatchEffect.runCall (orActive active name),
       DispatchEffect.notifyInfo ("Run succeeded for `" ++ orActive active name ++ "`")]

/-- `SQLMeshApp.action_run_intervals` (app.py lines 552-555): await the run
worker, then await the environment fetch unconditionally — the run worker
swallows every exception of `ctx.run`, so the fetch is reached on success
and on failure alike. -/
def action_run_intervals (active : String) (name : Option String)
    (runOutcome : String → Except String Unit) : List DispatchEffect :=
  sqlmesh_run active name runOutcome ++ [DispatchEffect.refreshEnvironments]

/-- A concrete environment used to instantiate theorems on closed inputs:
a context with a few members and trivially succeeding oracles. -/
def envEx : AppEnv :=
  { activeEnvironment := "prod",
    ctx := { members := [("plan", true), ("run", true), ("_run_plan_tests", true), ("config", false)],
             call := fun _ _ => CtxCallOutcome.returned none },
    shell := fun _ => ShellOutcome.finished "" "" }

/-- A concrete base terminal state right after construction. -/
def stEx : TermState :=
  { promptReturn := AWAITING_INPUT, inPrompt := false, history := [], ttyValue := "",
    log := [], notifications := [], bells := 0, kills := 0, dispatched := [], exited := false }

/-- A concrete sequence of 101 distinct command lines, one more than the
history capacity. -/
def xs101 : List String := (List.range 101).map (fun n => "line" ++ toString n)

/-- A concrete external-call oracle that always succeeds. -/
def ocOk : String → Except String Unit := fun _ => Except.ok ()

/-- A concrete external-call oracle that always raises (repr text `boom`). -/
def ocErr : String → Except String Unit := fun _ => Except.error "boom"

/-- A concrete environment whose shell oracle always hits the 10-second
timeout, returning the given captured streams. -/
def envTimeout : AppEnv :=
  { envEx with shell := fun _ => ShellOutcome.timedOut "partial out" "partial err" }

/-- A concrete environment whose shell oracle always finishes in time with
non-empty captured streams. -/
def envQuick : AppEnv :=
  { envEx with shell := fun _ => ShellOutcome.finished "hello out" "oops err" }

/-- Frame facts about the stream epilogue of the `!` branch: it only
appends to the log. -/
theorem appendStreams_frame (s : TermState) (out err : String) :
    (appendStreams s out err).inPrompt = s.inPrompt ∧
    (appendStreams s out err).history = s.history ∧
    (appendStreams s out err).ttyValue = s.ttyValue ∧
    (appendStreams s out err).notifications = s.notifications ∧
    (appendStreams s out err).kills = s.kills ∧
    (appendStreams s out err).dispatched = s.dispatched := by
  unfold appendStreams appendErr appendOut
  by_cases ho : out = "" <;> by_cases he : err = "" <;>
    [rw [if_pos ho, if_pos he]; rw [if_pos ho, if_neg he]; rw [if_neg ho, if_pos he];
     rw [if_neg ho, if_neg he]] <;>
    exact ⟨rfl, rfl, rfl, rfl, rfl, rfl⟩

/-- Frame fact about the empty-bang warning: it only appends to the log. -/
theorem bangWarn_frame (capture : String) (s : TermState) :
    (bangWarn capture s).inPrompt = s.inPrompt ∧
    (bangWarn capture s).history = s.history ∧
    (bangWarn capture s).ttyValue = s.ttyValue ∧
    (bangWarn capture s).notifications = s.notifications ∧
    (bangWarn capture s).kills = s.kills ∧
    (bangWarn capture s).dispatched = s.dispatched := by
  unfold bangWarn
  by_cases h : capture = "!"
  · rw [if_pos h]; exact ⟨rfl, rfl, rfl, rfl, rfl, rfl⟩
  · rw [if_neg h]; exact ⟨rfl, rfl, rfl, rfl, rfl, rfl⟩

/-- Frame facts about the `:` branch: it never touches the prompt-pending
flag, the history, or the input value. -/
theorem metaBranch_frame (env : AppEnv) (capture : String) (s : TermState) :
    (metaBranch env capture s).1.inPrompt = s.inPrompt ∧
    (metaBranch env capture s).1.history = s.history ∧
    (metaBranch env capture s).1.ttyValue = s.ttyValue := by
  unfold metaBranch
  by_cases h : capture = ":"
  · rw [if_pos h]; exact ⟨rfl, rfl, rfl⟩
  · rw [if_neg h]
    cases hsp : shlexSplit (strTail capture) with
    | none => exact ⟨rfl, rfl, rfl⟩
    | some ts =>
      cases ts with
      | nil => exact ⟨rfl, rfl, rfl⟩
      | cons command args =>
        dsimp only
        by_cases hc : command = "plan"
        · rw [if_pos hc]; exact ⟨rfl, rfl, rfl⟩
        · rw [if_neg hc]
          cases hcall : env.ctx.call command args with
          | returned rv => exact ⟨rfl, rfl, rfl⟩
          | raised e => exact ⟨rfl, rfl, rfl⟩

/-- Frame facts about the `!` branch: it never touches the prompt-pending
flag, the history, or the input value. -/
theorem bangBranch_frame (env : AppEnv) (capture : String) (s : TermState) :
    (bangBranch env capture s).1.inPrompt = s.inPrompt ∧
    (bangBranch env capture s).1.history = s.history ∧
    (bangBranch env capture s).1.ttyValue = s.ttyValue := by
  unfold bangBranch
  cases hsh : env.shell (strTail capture) with
  | finished out err =>
      refine ⟨?_, ?_, ?_⟩
      · exact ((appendStreams_frame _ _ _).1).trans ((bangWarn_frame _ _).1)
      · exact ((appendStreams_frame _ _ _).2.1).trans ((bangWarn_frame _ _).2.1)
      · exact ((appendStreams_frame _ _ _).2.2.1).trans ((bangWarn_frame _ _).2.2.1)
  | timedOut out err =>
      refine ⟨?_, ?_, ?_⟩
      · exact ((appendStreams_frame _ _ _).1).trans ((bangWarn_frame _ _).1)
      · exact ((appendStreams_frame _ _ _).2.1).trans ((bangWarn_frame _ _).2.1)
      · exact ((appendStreams_frame _ _ _).2.2.1).trans ((bangWarn_frame _ _).2.2.1)
  | waitRaised out err =>
      refine ⟨?_, ?_, ?_⟩
      · exact ((appendStreams_frame _ _ _).1).trans ((bangWarn_frame _ _).1)
      · exact ((appendStreams_frame _ _ _).2.1).trans ((bangWarn_frame _ _).2.1)
      · exact ((appendStreams_frame _ _ _).2.2.1).trans ((bangWarn_frame _ _).2.2.1)

/-- Frame facts about the `try` body: it never touches the prompt-pending
flag, the history, or the input value (those are only written by the
epilogue of `key_enter` itself). -/
theorem keyEnterBody_frame (env : AppEnv) (capture : String) (s : TermState) :
    (keyEnterBody env capture s).1.inPrompt = s.inPrompt ∧
    (keyEnterBody env capture s).1.history = s.history ∧
    (keyEnterBody env capture s).1.ttyValue = s.ttyValue := by
  unfold keyEnterBody
  by_cases h1 : s.inPrompt = true
  · rw [if_pos h1]; exact ⟨rfl, rfl, rfl⟩
  · rw [if_neg h1]
    by_cases h2 : capture = ""
    · rw [if_pos h2]; exact ⟨rfl, rfl, rfl⟩
    · rw [if_neg h2]
      by_cases h3 : headIs ':' capture = true
      · rw [if_pos h3]; exact metaBranch_frame env capture s
      · rw [if_neg h3]
        by_cases h4 : headIs '!' capture = true
        · rw [if_pos h4]; exact bangBranch_frame env capture s
        · rw [if_neg h4]
          simp only [apply_ite Prod.fst, apply_ite TermState.inPrompt,
            apply_ite TermState.history, apply_ite TermState.ttyValue]
          simp only [ite_self, and_self]

/-- Frame facts about the `except` handler: it only touches the bell count
and the input value. -/
theorem keyEnterExcept_frame (capture : String) (r : TermState × Bool) :
    (keyEnterExcept capture r).inPrompt = r.1.inPrompt ∧
    (keyEnterExcept capture r).history = r.1.history ∧
    (keyEnterExcept capture r).log = r.1.log ∧
    (keyEnterExcept capture r).notifications = r.1.notifications ∧
    (keyEnterExcept capture r).dispatched = r.1.dispatched ∧
    (keyEnterExcept capture r).promptReturn = r.1.promptReturn ∧
    (keyEnterExcept capture r).kills = r.1.kills := by
  unfold keyEnterExcept
  by_cases h : r.2 = true
  · rw [if_pos h]; exact ⟨rfl, rfl, rfl, rfl, rfl, rfl, rfl⟩
  · rw [if_neg h]; exact ⟨rfl, rfl, rfl, rfl, rfl, rfl, rfl⟩

/-- Frame facts about the `finally` clause: it only touches the history and
the input value. -/
theorem keyEnterFin_frame (capture : String) (s1 : TermState) :
    (keyEnterFin capture s1).promptReturn = s1.promptReturn ∧
    (keyEnterFin capture s1).inPrompt = s1.inPrompt ∧
    (keyEnterFin capture s1).log = s1.log ∧
    (keyEnterFin capture s1).notifications = s1.notifications ∧
    (keyEnterFin capture s1).bells = s1.bells ∧
    (keyEnterFin capture s1).kills = s1.kills ∧
    (keyEnterFin capture s1).dispatched = s1.dispatched ∧
    (keyEnterFin capture s1).exited = s1.exited ∧
    (keyEnterFin capture s1).ttyValue = "" := by
  unfold keyEnterFin
  by_cases h : s1.inPrompt = true
  · rw [if_pos h]; exact ⟨rfl, rfl, rfl, rfl, rfl, rfl, rfl, rfl, rfl⟩
  · rw [if_neg h]; exact ⟨rfl, rfl, rfl, rfl, rfl, rfl, rfl, rfl, rfl⟩

/-- Every `key_enter` step taken while no prompt is pending pushes the
submitted line onto the bounded history, front-first with capacity
`histMax`. -/
theorem keyEnter_history (env : AppEnv) (s : TermState) (hp : s.inPrompt = false) :
    (keyEnter env s).history = appendLeftBounded histMax s.ttyValue s.history := by
  unfold keyEnter
  have h1 : (keyEnterExcept s.ttyValue (keyEnterBody env s.ttyValue (keyEnterEcho s))).inPrompt = false := by
    rw [(keyEnterExcept_frame _ _).1, (keyEnterBody_frame _ _ _).1]
    exact hp
  have h2 : (keyEnterExcept s.ttyValue (keyEnterBody env s.ttyValue (keyEnterEcho s))).history = s.history := by
    rw [(keyEnterExcept_frame _ _).2.1, (keyEnterBody_frame _ _ _).2.1]
    exact rfl
  unfold keyEnterFin
  rw [if_neg (by rw [h1]; exact Bool.false_ne_true)]
  show appendLeftBounded histMax s.ttyValue
    (keyEnterExcept s.ttyValue (keyEnterBody env s.ttyValue (keyEnterEcho s))).history =
    appendLeftBounded histMax s.ttyValue s.history
  rw [h2]

/-- Closed form of a `key_enter` step taken while a prompt is pending: the
whole captured line lands in the response slot, the echo is logged, the
input is cleared, and nothing else changes (in particular the `finally`
clause skips the history push). -/
theorem keyEnter_prompt (env : AppEnv) (s : TermState) (hp : s.inPrompt = true) :
    keyEnter env s =
      { s with promptReturn := s.ttyValue,
               log := s.log ++ ["\n[blue]> " ++ s.ttyValue ++ "[/blue]"],
               ttyValue := "" } := by
  simp [keyEnter, keyEnterEcho, keyEnterBody, keyEnterExcept, keyEnterFin, hp]

/-- Closed form of a `key_enter` step on an empty line with no prompt
pending: no branch of the body fires, but the echo is logged and the
`finally` clause still pushes the empty line onto the history. -/
theorem keyEnter_empty (env : AppEnv) (s : TermState)
    (hp : s.inPrompt = false) (hv : s.ttyValue = "") :
    keyEnter env s =
      { s with log := s.log ++ ["\n[blue]> " ++ s.ttyValue ++ "[/blue]"],
               history := appendLeftBounded histMax s.ttyValue s.history,
               ttyValue := "" } := by
  simp [keyEnter, keyEnterEcho, keyEnterBody, keyEnterExcept, keyEnterFin, hp, hv]

/-- C1 counterexample: the claim says every routed line other than
`y`/`yes`/`n`/`no` makes `confirm` log and resolve to `false`, but a routed
line equal to the internal sentinel `"__AWAITING_INPUT__"` is one such line
on which the polling loop keeps waiting instead of resolving at all. -/
theorem C1_cex_sentinel_response :
    AWAITING_INPUT ∉ (["y", "yes", "n", "no"] : List String) ∧
    confirmResolve AWAITING_INPUT = ConfirmOutcome.stillWaiting ∧
    ConfirmOutcome.stillWaiting ≠ ConfirmOutcome.resolvedTrue ∧
    ConfirmOutcome.stillWaiting ≠ ConfirmOutcome.resolvedFalse true ∧
    ConfirmOutcome.stillWaiting ≠ ConfirmOutcome.resolvedFalse false := by
  decide

/-- C1 (amended): a line submitted while a prompt is pending is written
whole into the response slot; `confirm` then resolves to `true` iff the
line is exactly `y` or `yes`, to `false` without warning for `n`/`no`, to
`false` with an invalid-response warning for any other line except the
sentinel `"__AWAITING_INPUT__"`, on which the polling loop keeps waiting. -/
theorem C1_confirm_resolution (env : AppEnv) (s : TermState) (line : String)
    (hp : s.inPrompt = true) :
    (keyEnter env { s with ttyValue := line }).promptReturn = line ∧
    (confirmResolve line = ConfirmOutcome.resolvedTrue ↔ line = "y" ∨ line = "yes") ∧
    ((line = "n" ∨ line = "no") → confirmResolve line = ConfirmOutcome.resolvedFalse false) ∧
    (line ≠ AWAITING_INPUT → line ≠ "y" → line ≠ "yes" → line ≠ "n" → line ≠ "no" →
      confirmResolve line = ConfirmOutcome.resolvedFalse true) ∧
    confirmResolve AWAITING_INPUT = ConfirmOutcome.stillWaiting := by
  refine ⟨?_, ?_, ?_, ?_, by decide⟩
  · rw [keyEnter_prompt env { s with ttyValue := line } hp]
  · unfold confirmResolve
    split_ifs with h1 h2 h3
    · subst h1; decide
    · exact iff_of_true rfl h2
    · exact iff_of_false (by decide) h2
    · exact iff_of_false (by decide) h2
  · intro h
    unfold confirmResolve
    split_ifs with h1 h2
    · subst h1
      rcases h with h | h <;> exact absurd h (by decide)
    · rcases h2 with rfl | rfl <;> rcases h with h | h <;> exact absurd h (by decide)
    · rfl
  · intro hs hy hyes hn hno
    unfold confirmResolve
    rw [if_neg hs, if_neg (fun h => h.elim hy hyes), if_neg (fun h => h.elim hn hno)]

/-- C1 witness: the amended theorem instantiated at the invalid response
`maybe`, submitted while a prompt is pending. -/
theorem C1_confirm_resolution_witness :
    (keyEnter envEx { stEx with inPrompt := true, ttyValue := "maybe" }).promptReturn = "maybe" ∧
    confirmResolve "maybe" = ConfirmOutcome.resolvedFalse true := by
  have h := C1_confirm_resolution envEx { stEx with inPrompt := true } "maybe" rfl
  exact ⟨h.1, h.2.2.2.1 (by decide) (by decide) (by decide) (by decide) (by decide)⟩

/-- C10 counterexample: the claim says every prompt-response line outside
the four lowercase answers is logged as invalid with `confirm` returning
`false`, but the sentinel line `"__AWAITING_INPUT__"` is outside that set
and the loop neither logs nor returns on it. -/
theorem C10_cex_sentinel_not_logged :
    ¬ (AWAITING_INPUT = "y" ∨ AWAITING_INPUT = "yes" ∨
       AWAITING_INPUT = "n" ∨ AWAITING_INPUT = "no") ∧
    confirmResolve AWAITING_INPUT ≠ ConfirmOutcome.resolvedFalse true ∧
    confirmResolve AWAITING_INPUT ≠ ConfirmOutcome.resolvedFalse false ∧
    confirmResolve AWAITING_INPUT ≠ ConfirmOutcome.resolvedTrue := by
  decide

/-- C10 (amended): the comparison is case-sensitive — every prompt-response
line other than the sentinel that is not exactly lowercase `y`, `yes`, `n`
or `no` (including `Y`, `Yes`, `NO`) is logged as an invalid response with
`confirm` returning `false`; the sentinel line leaves the loop waiting. -/
theorem C10_confirm_case_sensitive (line : String)
    (hs : line ≠ AWAITING_INPUT) (hy : line ≠ "y") (hyes : line ≠ "yes")
    (hn : line ≠ "n") (hno : line ≠ "no") :
    confirmResolve line = ConfirmOutcome.resolvedFalse true ∧
    confirmResolve "Y" = ConfirmOutcome.resolvedFalse true ∧
    confirmResolve "Yes" = ConfirmOutcome.resolvedFalse true ∧
    confirmResolve "NO" = ConfirmOutcome.resolvedFalse true ∧
    confirmResolve AWAITING_INPUT = ConfirmOutcome.stillWaiting := by
  refine ⟨?_, by decide, by decide, by decide, by decide⟩
  unfold confirmResolve
  rw [if_neg hs, if_neg (fun h => h.elim hy hyes), if_neg (fun h => h.elim hn hno)]

/-- C10 witness: the amended theorem instantiated at the uppercase reply
`Y`, which the case-sensitive comparison treats as invalid. -/
theorem C10_confirm_case_sensitive_witness :
    confirmResolve "Y" = ConfirmOutcome.resolvedFalse true :=
  (C10_confirm_case_sensitive "Y" (by decide) (by decide) (by decide) (by decide) (by decide)).1

/-- C2: evaluation of `key_enter` at the failing input `xyzzy` (an unknown
command, so routing raises): the bell is rung and the unknown-command error
is logged, but after the handler returns the input box is empty — the
`finally` clause unconditionally clears it right after the `except` handler
restored it, so the restore never survives the call. -/
theorem C2_unknown_command_input_not_restored :
    (keyEnter envEx { stEx with ttyValue := "xyzzy" }).bells = 1 ∧
    (keyEnter envEx { stEx with ttyValue := "xyzzy" }).log =
      ["\n[blue]> xyzzy[/blue]", "[red]Unknown command: xyzzy[/red]"] ∧
    ("xyzzy" : String) ≠ "" ∧
    (keyEnter envEx { stEx with ttyValue := "xyzzy" }).ttyValue = "" := by
  decide

/-- C3 counterexample: submitting an empty line with no prompt pending
dispatches nothing, yet the history does not stay unchanged — the
`finally` clause appends the empty line to it. -/
theorem C3_cex_empty_line_appends_history :
    (keyEnter envEx { stEx with ttyValue := "", history := ["a"] }).history = ["", "a"] ∧
    (["", "a"] : List String) ≠ ["a"] ∧
    (keyEnter envEx { stEx with ttyValue := "", history := ["a"] }).dispatched = [] := by
  decide

/-- C3 (amended): submitting an empty line when no prompt is pending
dispatches no action, produces no notification, bell or exit, and leaves
the prompt slot alone, but the line is still echoed to the log and the
empty string is still pushed onto the bounded history by the `finally`
clause; the input box ends cleared. -/
theorem C3_empty_line_no_dispatch_but_history (env : AppEnv) (s : TermState)
    (hp : s.inPrompt = false) (hv : s.ttyValue = "") :
    (keyEnter env s).dispatched = s.dispatched ∧
    (keyEnter env s).notifications = s.notifications ∧
    (keyEnter env s).bells = s.bells ∧
    (keyEnter env s).exited = s.exited ∧
    (keyEnter env s).promptReturn = s.promptReturn ∧
    (keyEnter env s).history = appendLeftBounded histMax "" s.history ∧
    (keyEnter env s).log = s.log ++ ["\n[blue]> " ++ s.ttyValue ++ "[/blue]"] ∧
    (keyEnter env s).ttyValue = "" := by
  rw [keyEnter_empty env s hp hv, hv]
  exact ⟨rfl, rfl, rfl, rfl, rfl, rfl, rfl, rfl⟩

/-- C3 witness: the amended theorem instantiated at a concrete state with a
one-element history. -/
theorem C3_empty_line_no_dispatch_but_history_witness :
    (keyEnter envEx { stEx with ttyValue := "", history := ["a"] }).dispatched = [] ∧
    (keyEnter envEx { stEx with ttyValue := "", history := ["a"] }).history =
      appendLeftBounded histMax "" ["a"] := by
  have h := C3_empty_line_no_dispatch_but_history envEx
    { stEx with ttyValue := "", history := ["a"] } rfl rfl
  exact ⟨h.1, h.2.2.2.2.2.1⟩

/-- C4: a line submitted while a prompt is pending is consumed whole as the
prompt answer — it lands verbatim in the response slot, nothing is
dispatched, only the echo is logged, and the line is never appended to the
command history. -/
theorem C4_prompt_line_whole_answer (env : AppEnv) (s : TermState) (line : String)
    (hp : s.inPrompt = true) :
    (keyEnter env { s with ttyValue := line }).promptReturn = line ∧
    (keyEnter env { s with ttyValue := line }).history = s.history ∧
    (keyEnter env { s with ttyValue := line }).dispatched = s.dispatched ∧
    (keyEnter env { s with ttyValue := line }).log =
      s.log ++ ["\n[blue]> " ++ line ++ "[/blue]"] := by
  rw [keyEnter_prompt env { s with ttyValue := line } hp]
  exact ⟨rfl, rfl, rfl, rfl⟩

/-- C4 witness: the theorem instantiated at the line `yes` submitted while
a prompt is pending on a concrete state. -/
theorem C4_prompt_line_whole_answer_witness :
    (keyEnter envEx { stEx with inPrompt := true, ttyValue := "yes" }).promptReturn = "yes" ∧
    (keyEnter envEx { stEx with inPrompt := true, ttyValue := "yes" }).history = [] := by
  have h := C4_prompt_line_whole_answer envEx { stEx with inPrompt := true } "yes" rfl
  exact ⟨h.1, h.2.1⟩

/-- Auxiliary: taking `n` of an append is unaffected by first truncating
the right operand to `n`. -/
theorem take_append_take (n : Nat) (a b : List α) :
    (a ++ b.take n).take n = (a ++ b).take n := by
  rw [List.take_append_eq_append_take, List.take_append_eq_append_take, List.take_take,
    Nat.min_eq_left (Nat.sub_le n a.length)]

/-- Closed form of repeatedly pushing lines onto a bounded history of
capacity `n`: the result is the reversed push sequence prepended to the
start state, truncated to `n`. -/
theorem foldl_appendLeftBounded (n : Nat) (xs : List α) (h0 : List α)
    (hh : h0.length ≤ n) :
    xs.foldl (fun h x => appendLeftBounded n x h) h0 = (xs.reverse ++ h0).take n := by
  induction xs generalizing h0 with
  | nil => simp [List.take_of_length_le hh]
  | cons x xs ih =>
    have hlen : (appendLeftBounded n x h0).length ≤ n := by
      simp only [appendLeftBounded, List.length_take]
      exact Nat.min_le_left _ _
    rw [List.foldl_cons, ih _ hlen, appendLeftBounded, take_append_take,
      List.reverse_cons, List.append_assoc, List.singleton_append]

/-- A `key_enter` step never changes whether a prompt is pending: that flag
belongs to `_interact`, which is not part of `key_enter`. -/
theorem keyEnter_inPrompt (env : AppEnv) (s : TermState) :
    (keyEnter env s).inPrompt = s.inPrompt := by
  unfold keyEnter
  rw [(keyEnterFin_frame _ _).2.1, (keyEnterExcept_frame _ _).1, (keyEnterBody_frame _ _ _).1]
  exact rfl

/-- Submitting a sequence of lines with no prompt pending folds the bounded
push over the sequence. -/
theorem submitLines_history (env : AppEnv) (xs : List String) (s0 : TermState)
    (hp : s0.inPrompt = false) :
    (submitLines env xs s0).history =
      xs.foldl (fun h x => appendLeftBounded histMax x h) s0.history := by
  induction xs generalizing s0 with
  | nil => rfl
  | cons x xs ih =>
    have hp1 : (keyEnter env { s0 with ttyValue := x }).inPrompt = false := by
      rw [keyEnter_inPrompt]
      exact hp
    show (submitLines env xs (keyEnter env { s0 with ttyValue := x })).history =
      (x :: xs).foldl (fun h x => appendLeftBounded histMax x h) s0.history
    rw [ih _ hp1, keyEnter_history env { s0 with ttyValue := x } (by exact hp)]
    exact rfl

/-- C5: for every capacity `N`, pushing `N + 1` distinct lines onto an
empty bounded history of capacity `N` leaves exactly the newest `N` lines,
most recent first, with the first (oldest) line evicted; every `key_enter`
step taken with no prompt pending performs exactly such a bounded push
with the code capacity `histMax = 100`; and at that code capacity,
submitting the `N + 1` lines through the terminal yields exactly the
newest `N` in most-recent-first order. -/
theorem C5_history_eviction (N : Nat) (xs : List String)
    (hlen : xs.length = N + 1) (hnd : xs.Nodup) :
    xs.foldl (fun h x => appendLeftBounded N x h) [] = (xs.drop 1).reverse ∧
    (∀ x0, xs.head? = some x0 → x0 ∉ (xs.drop 1).reverse) ∧
    (∀ (env : AppEnv) (s : TermState) (line : String), s.inPrompt = false →
      (keyEnter env { s with ttyValue := line }).history =
        appendLeftBounded histMax line s.history) ∧
    (N = histMax → ∀ (env : AppEnv) (s0 : TermState),
      s0.inPrompt = false → s0.history = [] →
      (submitLines env xs s0).history = (xs.drop 1).reverse) := by
  have hfold : xs.foldl (fun h x => appendLeftBounded N x h) [] = (xs.drop 1).reverse := by
    rw [foldl_appendLeftBounded N xs [] (by simp)]
    cases xs with
    | nil => simp at hlen
    | cons x t =>
      have ht : t.reverse.length = N := by
        simpa using Nat.succ_injective (by simpa using hlen)
      simp only [List.reverse_cons, List.append_nil, List.drop_succ_cons, List.drop_zero]
      exact List.take_left' ht
  refine ⟨hfold, ?_, ?_, ?_⟩
  · intro x0 hx0
    cases xs with
    | nil => simp at hx0
    | cons x t =>
      obtain rfl : x0 = x := by exact (by simpa using hx0 : x = x0).symm
      simp only [List.drop_succ_cons, List.drop_zero, List.mem_reverse]
      exact (List.nodup_cons.mp hnd).1
  · intro env s line hp
    exact keyEnter_history env { s with ttyValue := line } hp
  · intro hN env s0 hp hh
    rw [submitLines_history env xs s0 hp, hh, ← hN, hfold]

/-- C5 witness: the theorem instantiated at capacity 1 with the two
distinct lines `a`, `b`, plus one concrete `key_enter` push at the code
capacity. -/
theorem C5_history_eviction_witness :
    (["a", "b"].foldl (fun h x => appendLeftBounded 1 x h) [] = ["b"]) ∧
    ("a" ∉ (["b"] : List String)) ∧
    (keyEnter envEx { stEx with ttyValue := "hello" }).history =
      appendLeftBounded histMax "hello" [] ∧
    (submitLines envEx xs101 stEx).history = (xs101.drop 1).reverse := by
  have h := C5_history_eviction 1 ["a", "b"] (by decide) (by decide)
  have hbig := C5_history_eviction histMax xs101 (by decide) (by decide)
  exact ⟨h.1, h.2.1 "a" rfl, h.2.2.1 envEx stEx "hello" rfl,
    hbig.2.2.2 rfl envEx stEx rfl rfl⟩

/-- C6: the plan worker calls the context plan and, exactly when that call
returns normally, afterwards triggers one environment refresh; when the
call raises it emits the error notification carrying the exception repr
and triggers zero refreshes. -/
theorem C6_plan_refresh (active : String) (name : Option String)
    (oc : String → Except String Unit) :
    (∀ u, oc (orActive active name) = Except.ok u →
      sqlmesh_plan active name oc =
        [DispatchEffect.planCall (orActive active name),
         DispatchEffect.refreshEnvironments] ∧
      (sqlmesh_plan active name oc).count DispatchEffect.refreshEnvironments = 1) ∧
    (∀ e, oc (orActive active name) = Except.error e →
      sqlmesh_plan active name oc =
        [DispatchEffect.planCall (orActive active name),
         DispatchEffect.notifyError e] ∧
      (sqlmesh_plan active name oc).count DispatchEffect.refreshEnvironments = 0) := by
  constructor
  · intro u hu
    unfold sqlmesh_plan
    rw [hu]
    refine ⟨rfl, ?_⟩
    simp [List.count_cons]
  · intro e he
    unfold sqlmesh_plan
    rw [he]
    refine ⟨rfl, ?_⟩
    simp [List.count_cons]

/-- C6 witness: the theorem instantiated with an always-succeeding and an
always-raising plan oracle. -/
theorem C6_plan_refresh_witness :
    sqlmesh_plan "prod" none ocOk =
      [DispatchEffect.planCall "prod", DispatchEffect.refreshEnvironments] ∧
    (sqlmesh_plan "prod" none ocOk).count DispatchEffect.refreshEnvironments = 1 ∧
    sqlmesh_plan "prod" none ocErr =
      [DispatchEffect.planCall "prod", DispatchEffect.notifyError "boom"] ∧
    (sqlmesh_plan "prod" none ocErr).count DispatchEffect.refreshEnvironments = 0 := by
  have h1 := (C6_plan_refresh "prod" none ocOk).1 () rfl
  have h2 := (C6_plan_refresh "prod" none ocErr).2 "boom" rfl
  exact ⟨h1.1, h1.2, h2.1, h2.2⟩

/-- C7: `action_run_intervals` refreshes the environment list exactly once
whether the run call succeeds or raises; success yields the success
notification and failure the failure notification, the refresh coming
after the run in both traces; and the input `r staging` dispatches a
run-intervals action for `staging`. -/
theorem C7_run_intervals_refresh (active : String) (name : Option String)
    (oc : String → Except String Unit) :
    (action_run_intervals active name oc).count DispatchEffect.refreshEnvironments = 1 ∧
    (∀ u, oc (orActive active name) = Except.ok u →
      action_run_intervals active name oc =
        [DispatchEffect.runCall (orActive active name),
         DispatchEffect.notifyInfo ("Run succeeded for `" ++ orActive active name ++ "`"),
         DispatchEffect.refreshEnvironments]) ∧
    (∀ e, oc (orActive active name) = Except.error e →
      action_run_intervals active name oc =
        [DispatchEffect.runCall (orActive active name),
         DispatchEffect.notifyError ("Run failed for `" ++ orActive active name ++ "`"),
         DispatchEffect.refreshEnvironments]) ∧
    (keyEnter envEx { stEx with ttyValue := "r staging" }).dispatched =
      [Action.runIntervals "staging"] := by
  refine ⟨?_, ?_, ?_, by decide⟩
  · unfold action_run_intervals sqlmesh_run
    cases h : oc (orActive active name) with
    | ok u => simp [List.count_cons, List.count_append]
    | error e => simp [List.count_cons, List.count_append]
  · intro u hu
    unfold action_run_intervals sqlmesh_run
    rw [hu]
    exact rfl
  · intro e he
    unfold action_run_intervals sqlmesh_run
    rw [he]
    exact rfl

/-- C7 witness: the theorem instantiated with an always-succeeding and an
always-raising run oracle at environment `staging`. -/
theorem C7_run_intervals_refresh_witness :
    (action_run_intervals "prod" (some "staging") ocOk).count
      DispatchEffect.refreshEnvironments = 1 ∧
    action_run_intervals "prod" (some "staging") ocOk =
      [DispatchEffect.runCall "staging",
       DispatchEffect.notifyInfo ("Run succeeded for `" ++ "staging" ++ "`"),
       DispatchEffect.refreshEnvironments] ∧
    (action_run_intervals "prod" (some "staging") ocErr).count
      DispatchEffect.refreshEnvironments = 1 := by
  have h1 := C7_run_intervals_refresh "prod" (some "staging") ocOk
  have h2 := C7_run_intervals_refresh "prod" (some "staging") ocErr
  exact ⟨h1.1, h1.2.1 () rfl, h2.1⟩

/-- Tokenising a remainder that begins `plan ` always yields `plan` as the
first token (or fails as a whole if the rest is malformed): the first five
characters are ordinary followed by a separator, so they commit the token
before the rest is examined. -/
theorem shlex_plan_space (cs : List Char) :
    shlexTokAux ('p' :: 'l' :: 'a' :: 'n' :: ' ' :: cs) ShMode.normal [] false =
      (shlexTokAux cs ShMode.normal [] false).map (fun ts => "plan" :: ts) := rfl

/-- Character content of a line of the form `:plan <rest>`. -/
theorem data_colonPlanSpace (rest : String) :
    (":plan " ++ rest).data = ':' :: 'p' :: 'l' :: 'a' :: 'n' :: ' ' :: rest.data := rfl

/-- A `:plan ...` line is never the empty line. -/
theorem colonPlanSpace_ne_empty (rest : String) : ":plan " ++ rest ≠ "" := by
  intro h
  have h2 := congrArg String.data h
  rw [data_colonPlanSpace] at h2
  simp at h2

/-- A `:plan ...` line is never the bare meta-prefix. -/
theorem colonPlanSpace_ne_colon (rest : String) : ":plan " ++ rest ≠ ":" := by
  intro h
  have h2 := congrArg String.data h
  rw [data_colonPlanSpace] at h2
  simp at h2

/-- A `:plan ...` line starts with the meta-prefix. -/
theorem headIs_colon_colonPlanSpace (rest : String) :
    headIs ':' (":plan " ++ rest) = true := rfl

/-- Stripping the meta-prefix from `:plan <rest>`. -/
theorem strTail_colonPlanSpace (rest : String) :
    strTail (":plan " ++ rest) = String.mk ('p' :: 'l' :: 'a' :: 'n' :: ' ' :: rest.data) := rfl

/-- Tokenising the remainder of a `:plan <rest>` line. -/
theorem shlexSplit_colonPlanSpace (rest : String) :
    shlexSplit (strTail (":plan " ++ rest)) =
      (shlexTokAux rest.data ShMode.normal [] false).map (fun ts => "plan" :: ts) := by
  rw [strTail_colonPlanSpace]
  exact shlex_plan_space rest.data

/-- The `:` branch on a `:plan <rest>` line never invokes anything: either
tokenisation fails (and the branch raises without dispatching) or the first
token is `plan` and the denylist rejects it with the redirect message. -/
theorem metaBranch_colonPlanSpace (env : AppEnv) (rest : String) (s : TermState) :
    (metaBranch env (":plan " ++ rest) s).1.dispatched = s.dispatched ∧
    (∀ ts, shlexTokAux rest.data ShMode.normal [] false = some ts →
      metaBranch env (":plan " ++ rest) s =
        ({ s with log := s.log ++
            ["[red]:plan context command is not supported, try using a builtin instead[/red]"] },
         false)) := by
  unfold metaBranch
  rw [if_neg (colonPlanSpace_ne_colon rest), shlexSplit_colonPlanSpace]
  cases hts : shlexTokAux rest.data ShMode.normal [] false with
  | none => exact ⟨rfl, fun ts h => Option.noConfusion h⟩
  | some ts => exact ⟨rfl, fun ts2 h => rfl⟩

/-- The body on a `:plan <rest>` line: dispatch is untouched, and when the
remainder tokenises the result is exactly the redirect log line. -/
theorem keyEnterBody_colonPlanSpace (env : AppEnv) (rest : String) (s0 : TermState)
    (hp : s0.inPrompt = false) :
    (keyEnterBody env (":plan " ++ rest) s0).1.dispatched = s0.dispatched ∧
    (∀ ts, shlexTokAux rest.data ShMode.normal [] false = some ts →
      keyEnterBody env (":plan " ++ rest) s0 =
        ({ s0 with log := s0.log ++
            ["[red]:plan context command is not supported, try using a builtin instead[/red]"] },
         false)) := by
  unfold keyEnterBody
  rw [if_neg (show ¬s0.inPrompt = true by rw [hp]; exact Bool.false_ne_true),
    if_neg (colonPlanSpace_ne_empty rest), if_pos (headIs_colon_colonPlanSpace rest)]
  exact metaBranch_colonPlanSpace env rest s0

/-- The body on the bare `:plan` line is exactly the redirect log line. -/
theorem keyEnterBody_colonPlan (env : AppEnv) (s0 : TermState) (hp : s0.inPrompt = false) :
    keyEnterBody env ":plan" s0 =
      ({ s0 with log := s0.log ++
          ["[red]:plan context command is not supported, try using a builtin instead[/red]"] },
       false) := by
  unfold keyEnterBody
  rw [if_neg (show ¬s0.inPrompt = true by rw [hp]; exact Bool.false_ne_true)]
  exact rfl

/-- The body on the bare `:` line is exactly the context-method listing. -/
theorem keyEnterBody_colon (env : AppEnv) (s0 : TermState) (hp : s0.inPrompt = false) :
    keyEnterBody env ":" s0 =
      ({ s0 with log := s0.log ++ [ctxMethodListing env.ctx.members] }, false) := by
  unfold keyEnterBody
  rw [if_neg (show ¬s0.inPrompt = true by rw [hp]; exact Bool.false_ne_true)]
  exact rfl

/-- Dispatch after a full `key_enter` step is whatever the body dispatched:
the `except` handler and the `finally` clause never touch it. -/
theorem keyEnter_dispatched (env : AppEnv) (s : TermState) (v : String)
    (hv : s.ttyValue = v) :
    (keyEnter env s).dispatched =
      (keyEnterBody env v (keyEnterEcho s)).1.dispatched := by
  unfold keyEnter
  rw [hv, (keyEnterFin_frame _ _).2.2.2.2.2.2.1, (keyEnterExcept_frame _ _).2.2.2.2.1]

/-- Composition: when the body of a `key_enter` step only appends `L` to
the log and does not raise, the full step appends the echo and `L` to the
log and leaves the dispatched actions alone. -/
theorem keyEnter_log_append (env : AppEnv) (s : TermState) (v : String) (L : List String)
    (hp : s.inPrompt = false) (hv : s.ttyValue = v)
    (hbody : ∀ s0 : TermState, s0.inPrompt = false →
      keyEnterBody env v s0 = ({ s0 with log := s0.log ++ L }, false)) :
    (keyEnter env s).log = (s.log ++ ["\n[blue]> " ++ v ++ "[/blue]"]) ++ L ∧
    (keyEnter env s).dispatched = s.dispatched := by
  have hb := hbody (keyEnterEcho s) (by exact hp)
  have hlog : (keyEnterEcho s).log = s.log ++ ["\n[blue]> " ++ v ++ "[/blue]"] := by
    unfold keyEnterEcho
    rw [hv]
  constructor
  · unfold keyEnter
    rw [hv, (keyEnterFin_frame _ _).2.2.1, (keyEnterExcept_frame _ _).2.2.1, hb]
    show (keyEnterEcho s).log ++ L = _
    rw [hlog]
  · unfold keyEnter
    rw [hv, (keyEnterFin_frame _ _).2.2.2.2.2.2.1, (keyEnterExcept_frame _ _).2.2.2.2.1, hb]
    exact rfl

/-- Membership characterisation of the public-callable listing built by the
bare `:` branch. -/
theorem mem_publicCallables (members : List (String × Bool)) (nm : String) :
    nm ∈ publicCallables members ↔
      ∃ c, (nm, c) ∈ members ∧ c = true ∧ headIs '_' nm = false := by
  unfold publicCallables
  constructor
  · intro h
    obtain ⟨x, hx, hfx⟩ := List.mem_map.mp h
    obtain ⟨a, c⟩ := x
    obtain rfl : a = nm := hfx
    obtain ⟨hmem, hcond⟩ := List.mem_filter.mp hx
    have hcond2 := Bool.and_eq_true_iff.mp hcond
    have hpub := hcond2.1
    rw [Bool.not_eq_true'] at hpub
    exact ⟨c, hmem, hcond2.2, hpub⟩
  · rintro ⟨c, hmem, hc, hn⟩
    apply List.mem_map.mpr
    refine ⟨(nm, c), List.mem_filter.mpr ⟨hmem, ?_⟩, rfl⟩
    show (!(headIs '_' nm) && c) = true
    rw [hn, hc]
    rfl

/-- C8: the bare meta-prefix `:` writes exactly the listing of the public,
callable members of the context object (and dispatches nothing), while a
`:plan ...` line never invokes anything on the context: when its remainder
tokenises it is rejected with the redirect message, and when tokenisation
fails the branch raises — in every case the dispatched actions are
unchanged. -/
theorem C8_meta_listing_and_plan_denylist (env : AppEnv) (s : TermState)
    (hp : s.inPrompt = false) :
    ((keyEnter env { s with ttyValue := ":" }).log =
      (s.log ++ ["\n[blue]> " ++ ":" ++ "[/blue]"]) ++ [ctxMethodListing env.ctx.members] ∧
     (keyEnter env { s with ttyValue := ":" }).dispatched = s.dispatched) ∧
    (∀ nm, nm ∈ publicCallables env.ctx.members ↔
      ∃ c, (nm, c) ∈ env.ctx.members ∧ c = true ∧ headIs '_' nm = false) ∧
    (∀ rest : String,
      (keyEnter env { s with ttyValue := ":plan " ++ rest }).dispatched = s.dispatched) ∧
    (keyEnter env { s with ttyValue := ":plan" }).dispatched = s.dispatched ∧
    (∀ rest ts, shlexTokAux rest.data ShMode.normal [] false = some ts →
      (keyEnter env { s with ttyValue := ":plan " ++ rest }).log =
        (s.log ++ ["\n[blue]> " ++ (":plan " ++ rest) ++ "[/blue]"]) ++
          ["[red]:plan context command is not supported, try using a builtin instead[/red]"]) := by
  refine ⟨?_, mem_publicCallables env.ctx.members, ?_, ?_, ?_⟩
  · exact keyEnter_log_append env { s with ttyValue := ":" } ":"
      [ctxMethodListing env.ctx.members] hp rfl (keyEnterBody_colon env)
  · intro rest
    rw [keyEnter_dispatched env { s with ttyValue := ":plan " ++ rest } (":plan " ++ rest) rfl,
      (keyEnterBody_colonPlanSpace env rest (keyEnterEcho { s with ttyValue := ":plan " ++ rest })
        (by exact hp)).1]
    exact rfl
  · exact (keyEnter_log_append env { s with ttyValue := ":plan" } ":plan"
      ["[red]:plan context command is not supported, try using a builtin instead[/red]"]
      hp rfl (keyEnterBody_colonPlan env)).2
  · intro rest ts hts
    exact (keyEnter_log_append env { s with ttyValue := ":plan " ++ rest } (":plan " ++ rest)
      ["[red]:plan context command is not supported, try using a builtin instead[/red]"]
      hp rfl (fun s0 h0 => (keyEnterBody_colonPlanSpace env rest s0 h0).2 ts hts)).1

/-- C8 witness: the concrete context of `envEx` — the listing holds exactly
its two public callable member names, and the concrete line `:plan prod`
leaves the dispatched actions empty while logging the redirect. -/
theorem C8_meta_listing_and_plan_denylist_witness :
    (keyEnter envEx { stEx with ttyValue := ":" }).log =
      (([] : List String) ++ ["\n[blue]> " ++ ":" ++ "[/blue]"]) ++
        [ctxMethodListing envEx.ctx.members] ∧
    ("plan" ∈ publicCallables envEx.ctx.members ↔
      ∃ c, ("plan", c) ∈ envEx.ctx.members ∧ c = true ∧ headIs '_' "plan" = false) ∧
    (keyEnter envEx { stEx with ttyValue := ":plan " ++ "prod" }).dispatched = [] := by
  have h := C8_meta_listing_and_plan_denylist envEx stEx rfl
  exact ⟨h.1.1, h.2.1 "plan", h.2.2.1 "prod"⟩

/-- Character content of a shell-escape line `!<cmd>`. -/
theorem data_bang (cmd : String) : ("!" ++ cmd).data = '!' :: cmd.data := rfl

/-- A shell-escape line starts with the bang prefix, not the meta-prefix. -/
theorem headIs_bang (cmd : String) :
    headIs '!' ("!" ++ cmd) = true ∧ headIs ':' ("!" ++ cmd) = false := ⟨rfl, rfl⟩

/-- A shell-escape line is never the empty line. -/
theorem bang_ne_empty (cmd : String) : "!" ++ cmd ≠ "" := by
  intro h
  have h2 := congrArg String.data h
  rw [data_bang] at h2
  simp at h2

/-- Stripping the bang prefix from `!<cmd>` gives back the command. -/
theorem strTail_bang (cmd : String) : strTail ("!" ++ cmd) = cmd :=
  String.ext rfl

/-- A shell-escape line with a non-empty command is not the bare bang. -/
theorem bangCmd_ne_bang (cmd : String) (hc : cmd ≠ "") : "!" ++ cmd ≠ "!" := by
  intro h
  have h2 := congrArg String.data h
  rw [data_bang] at h2
  have h3 : cmd.data = [] := by simpa using h2
  exact hc (String.ext h3)

/-- On a shell-escape line the body is exactly the `!` branch. -/
theorem keyEnterBody_bang (env : AppEnv) (cmd : String) (s0 : TermState)
    (hp : s0.inPrompt = false) :
    keyEnterBody env ("!" ++ cmd) s0 = bangBranch env ("!" ++ cmd) s0 := by
  unfold keyEnterBody
  rw [if_neg (show ¬s0.inPrompt = true by rw [hp]; exact Bool.false_ne_true),
    if_neg (bang_ne_empty cmd),
    if_neg (show ¬headIs ':' ("!" ++ cmd) = true by
      rw [(headIs_bang cmd).2]; exact Bool.false_ne_true),
    if_pos (headIs_bang cmd).1]

/-- The `!` branch when the subprocess times out: the process is killed,
the error-severity timeout notification is appended, and the captured
streams are logged; the branch does not raise. -/
theorem bangBranch_timedOut (env : AppEnv) (cmd : String) (s0 : TermState)
    (hc : cmd ≠ "") (out err : String)
    (hsh : env.shell cmd = ShellOutcome.timedOut out err) :
    bangBranch env ("!" ++ cmd) s0 =
      (appendStreams
        { s0 with
          kills := s0.kills + 1,
          notifications := s0.notifications ++
            [⟨"Command " ++ ("!" ++ cmd) ++ " timed out after 10 seconds... Long running commands should be ran in a dedicated shell",
              Severity.error⟩] } out err, false) := by
  unfold bangBranch
  rw [strTail_bang, hsh]
  unfold bangWarn
  rw [if_neg (bangCmd_ne_bang cmd hc)]

/-- The `!` branch when the subprocess finishes within the budget: no kill,
no notification, the captured streams are logged; the branch does not
raise. -/
theorem bangBranch_finished (env : AppEnv) (cmd : String) (s0 : TermState)
    (hc : cmd ≠ "") (out err : String)
    (hsh : env.shell cmd = ShellOutcome.finished out err) :
    bangBranch env ("!" ++ cmd) s0 = (appendStreams s0 out err, false) := by
  unfold bangBranch
  rw [strTail_bang, hsh]
  unfold bangWarn
  rw [if_neg (bangCmd_ne_bang cmd hc)]

/-- The kill counter, the notifications and the log after a full
`key_enter` step are whatever the body produced. -/
theorem keyEnter_projections (env : AppEnv) (s : TermState) (v : String)
    (hv : s.ttyValue = v) :
    (keyEnter env s).kills = (keyEnterBody env v (keyEnterEcho s)).1.kills ∧
    (keyEnter env s).notifications =
      (keyEnterBody env v (keyEnterEcho s)).1.notifications ∧
    (keyEnter env s).log = (keyEnterBody env v (keyEnterEcho s)).1.log := by
  unfold keyEnter
  rw [hv]
  refine ⟨?_, ?_, ?_⟩
  · rw [(keyEnterFin_frame _ _).2.2.2.2.2.1, (keyEnterExcept_frame _ _).2.2.2.2.2.2]
  · rw [(keyEnterFin_frame _ _).2.2.2.1, (keyEnterExcept_frame _ _).2.2.2.1]
  · rw [(keyEnterFin_frame _ _).2.2.1, (keyEnterExcept_frame _ _).2.2.1]

/-- The stream epilogue puts a non-empty stdout into the log verbatim and a
non-empty stderr into the log wrapped in the red `Stderr:` block. -/
theorem appendStreams_mem_log (X : TermState) (out err : String) :
    (out ≠ "" → out ∈ (appendStreams X out err).log) ∧
    (err ≠ "" → ("\n[red]Stderr:\n" ++ err ++ "[/red]") ∈ (appendStreams X out err).log) := by
  unfold appendStreams appendErr appendOut
  by_cases ho : out = "" <;> by_cases he : err = "" <;> simp [ho, he]

/-- C9: on a shell-escape line `!<cmd>` with a non-empty command, a
subprocess that exceeds the 10-second budget is killed and produces exactly
one new notification — the timeout message with error severity, so no
success notification — while a subprocess that finishes within the budget
is not killed, produces no notification, and has its non-empty captured
stdout logged verbatim and its non-empty captured stderr logged wrapped in
the red `Stderr:` block. -/
theorem C9_shell_timeout_and_streams (env : AppEnv) (s : TermState) (cmd : String)
    (hp : s.inPrompt = false) (hc : cmd ≠ "") :
    (∀ out err, env.shell cmd = ShellOutcome.timedOut out err →
      (keyEnter env { s with ttyValue := "!" ++ cmd }).kills = s.kills + 1 ∧
      (keyEnter env { s with ttyValue := "!" ++ cmd }).notifications =
        s.notifications ++
          [⟨"Command " ++ ("!" ++ cmd) ++ " timed out after 10 seconds... Long running commands should be ran in a dedicated shell",
            Severity.error⟩] ∧
      (∀ n, n ∈ (keyEnter env { s with ttyValue := "!" ++ cmd }).notifications →
        n ∈ s.notifications ∨ n.severity = Severity.error)) ∧
    (∀ out err, env.shell cmd = ShellOutcome.finished out err →
      (keyEnter env { s with ttyValue := "!" ++ cmd }).kills = s.kills ∧
      (keyEnter env { s with ttyValue := "!" ++ cmd }).notifications = s.notifications ∧
      (out ≠ "" → out ∈ (keyEnter env { s with ttyValue := "!" ++ cmd }).log) ∧
      (err ≠ "" → ("\n[red]Stderr:\n" ++ err ++ "[/red]") ∈
        (keyEnter env { s with ttyValue := "!" ++ cmd }).log)) := by
  have hpr := keyEnter_projections env { s with ttyValue := "!" ++ cmd } ("!" ++ cmd) rfl
  constructor
  · intro out err hsh
    have hb : keyEnterBody env ("!" ++ cmd) (keyEnterEcho { s with ttyValue := "!" ++ cmd }) =
        (appendStreams
          { (keyEnterEcho { s with ttyValue := "!" ++ cmd }) with
            kills := (keyEnterEcho { s with ttyValue := "!" ++ cmd }).kills + 1,
            notifications := (keyEnterEcho { s with ttyValue := "!" ++ cmd }).notifications ++
              [⟨"Command " ++ ("!" ++ cmd) ++ " timed out after 10 seconds... Long running commands should be ran in a dedicated shell",
                Severity.error⟩] } out err, false) := by
      rw [keyEnterBody_bang env cmd _ (by exact hp)]
      exact bangBranch_timedOut env cmd _ hc out err hsh
    have hkills : (keyEnter env { s with ttyValue := "!" ++ cmd }).kills = s.kills + 1 := by
      rw [hpr.1, hb]
      show (appendStreams _ out err).kills = _
      rw [(appendStreams_frame _ _ _).2.2.2.2.1]
      exact rfl
    have hnot : (keyEnter env { s with ttyValue := "!" ++ cmd }).notifications =
        s.notifications ++
          [⟨"Command " ++ ("!" ++ cmd) ++ " timed out after 10 seconds... Long running commands should be ran in a dedicated shell",
            Severity.error⟩] := by
      rw [hpr.2.1, hb]
      show (appendStreams _ out err).notifications = _
      rw [(appendStreams_frame _ _ _).2.2.2.1]
      exact rfl
    refine ⟨hkills, hnot, ?_⟩
    intro n hn
    rw [hnot] at hn
    rcases List.mem_append.mp hn with h | h
    · exact Or.inl h
    · right
      rw [List.mem_singleton.mp h]
  · intro out err hsh
    have hb : keyEnterBody env ("!" ++ cmd) (keyEnterEcho { s with ttyValue := "!" ++ cmd }) =
        (appendStreams (keyEnterEcho { s with ttyValue := "!" ++ cmd }) out err, false) := by
      rw [keyEnterBody_bang env cmd _ (by exact hp)]
      exact bangBranch_finished env cmd _ hc out err hsh
    refine ⟨?_, ?_, ?_, ?_⟩
    · rw [hpr.1, hb]
      show (appendStreams _ out err).kills = _
      rw [(appendStreams_frame _ _ _).2.2.2.2.1]
      exact rfl
    · rw [hpr.2.1, hb]
      show (appendStreams _ out err).notifications = _
      rw [(appendStreams_frame _ _ _).2.2.2.1]
      exact rfl
    · intro ho
      rw [hpr.2.2, hb]
      exact (appendStreams_mem_log _ out err).1 ho
    · intro he
      rw [hpr.2.2, hb]
      exact (appendStreams_mem_log _ out err).2 he

/-- C9 witness: the theorem instantiated at the command `sleep 60` against
an always-timing-out shell oracle and at `echo hi` against a quick one. -/
theorem C9_shell_timeout_and_streams_witness :
    (keyEnter envTimeout { stEx with ttyValue := "!" ++ "sleep 60" }).kills = 1 ∧
    (keyEnter envTimeout { stEx with ttyValue := "!" ++ "sleep 60" }).notifications =
      [⟨"Command " ++ ("!" ++ "sleep 60") ++ " timed out after 10 seconds... Long running commands should be ran in a dedicated shell",
        Severity.error⟩] ∧
    (keyEnter envQuick { stEx with ttyValue := "!" ++ "echo hi" }).notifications = [] ∧
    ("hello out" ∈ (keyEnter envQuick { stEx with ttyValue := "!" ++ "echo hi" }).log) := by
  have h1 := (C9_shell_timeout_and_streams envTimeout stEx "sleep 60" rfl (by decide)).1
    "partial out" "partial err" rfl
  have h2 := (C9_shell_timeout_and_streams envQuick stEx "echo hi" rfl (by decide)).2
    "hello out" "oops err" rfl
  exact ⟨h1.1, h1.2.1, h2.2.1, h2.2.2.1 (by decide)⟩

end SqlmeshTui
